import Mathlib

/-!
# Arduino_LSM6DSOX: register protocol and sample conversion

A shallow embedding of `src/LSM6DSOX.cpp`.  The driver talks to two external
collaborators, the two-wire bus (`TwoWire`) and the serial peripheral bus
(`SPIClass` plus the GPIO calls `pinMode` / `digitalWrite`).  Neither is part
of the driver, so both are a parameter here: a `Transport σ` gives, for an
arbitrary state type `σ`, the effect and the result of every call the driver
makes.  Every call is also appended to a trace, so that the framing of each
register access can be stated.

Conventions
* bytes (`uint8_t`) are naturals below 256, `int` results are integers;
* a local the source leaves uninitialised (`uint8_t value`, `int16_t data[3]`)
  is an extra argument holding its indeterminate initial content;
* `int16_t data[3]` viewed through `(uint8_t*)data` is six bytes, element `i`
  being bytes `2i` (low) and `2i+1` (high): the little-endian layout of every
  core the library targets;
* `float` / `double` values are `FloatVal`: NaN, an infinity, or the exact
  rational value of a finite number; arithmetic rounds to nearest-even.
-/

namespace LSM6DSOX

/-! ## Register map (the `#define`s of the source) -/

def LSM6DSOX_ADDRESS : Nat := 0x6A
def LSM6DSOX_WHO_AM_I_REG : Nat := 0x0F
def LSM6DSOX_CTRL1_XL : Nat := 0x10
def LSM6DSOX_CTRL2_G : Nat := 0x11
def LSM6DSOX_STATUS_REG : Nat := 0x1E
def LSM6DSOX_CTRL7_G : Nat := 0x16
def LSM6DSOX_CTRL8_XL : Nat := 0x17
def LSM6DSOX_OUTX_L_G : Nat := 0x22
def LSM6DSOX_OUTX_L_XL : Nat := 0x28

/-! ## The collaborators -/

inductive PinMode
  | INPUT
  | OUTPUT
deriving DecidableEq, Repr

inductive Level
  | LOW
  | HIGH
deriving DecidableEq, Repr

/-- The `SPISettings` value built by the constructor. -/
structure SPISettings where
  clock : Nat
  msbFirst : Bool
  dataMode : Nat
deriving DecidableEq, Repr

/-- One call made by the driver on a collaborator, with its arguments. -/
inductive Event
  | pinMode (pin : Int) (mode : PinMode)
  | digitalWrite (pin : Int) (level : Level)
  | spiBegin
  | spiEnd
  | spiBeginTransaction (settings : SPISettings)
  | spiEndTransaction
  | spiTransfer (byte : Nat)
  | spiTransferBuf (out : List Nat) (count : Nat)
  | wireBegin
  | wireEnd
  | wireBeginTransmission (address : Nat)
  | wireWrite (byte : Nat)
  | wireEndTransmission (sendStop : Bool)
  | wireRequestFrom (address : Nat) (quantity : Nat)
  | wireRead
deriving DecidableEq, Repr

/-- The behaviour of the collaborators over a state `σ` of the outside world.
Calls whose result the driver ignores only transform the state. -/
structure Transport (σ : Type) where
  pinMode : Int → PinMode → σ → σ
  digitalWrite : Int → Level → σ → σ
  spiBegin : σ → σ
  spiEnd : σ → σ
  spiBeginTransaction : SPISettings → σ → σ
  spiEndTransaction : σ → σ
  /-- Call `transfer(byte)`: the byte clocked in while `byte` is clocked out. -/
  spiTransfer : Nat → σ → Nat × σ
  /-- Call `transfer(buf, count)`: the bytes clocked in while `buf` is clocked out. -/
  spiTransferBuf : List Nat → Nat → σ → List Nat × σ
  wireBegin : σ → σ
  wireEnd : σ → σ
  wireBeginTransmission : Nat → σ → σ
  wireWrite : Nat → σ → σ
  /-- Call `endTransmission(sendStop)`: the completion status, 0 for success. -/
  wireEndTransmission : Bool → σ → Nat × σ
  /-- Call `requestFrom(address, quantity)`: the number of bytes granted. -/
  wireRequestFrom : Nat → Nat → σ → Nat × σ
  /-- Call `read()`: the next received byte, or -1 when none is left. -/
  wireRead : σ → Int × σ

/-- The outside world together with the calls made on it so far. -/
structure World (σ : Type) where
  st : σ
  trace : List Event

variable {σ : Type}

def pinMode (t : Transport σ) (pin : Int) (mode : PinMode) (w : World σ) : World σ :=
  ⟨t.pinMode pin mode w.st, w.trace ++ [Event.pinMode pin mode]⟩

def digitalWrite (t : Transport σ) (pin : Int) (level : Level) (w : World σ) : World σ :=
  ⟨t.digitalWrite pin level w.st, w.trace ++ [Event.digitalWrite pin level]⟩

def spiBegin (t : Transport σ) (w : World σ) : World σ :=
  ⟨t.spiBegin w.st, w.trace ++ [Event.spiBegin]⟩

def spiEnd (t : Transport σ) (w : World σ) : World σ :=
  ⟨t.spiEnd w.st, w.trace ++ [Event.spiEnd]⟩

def spiBeginTransaction (t : Transport σ) (settings : SPISettings) (w : World σ) : World σ :=
  ⟨t.spiBeginTransaction settings w.st, w.trace ++ [Event.spiBeginTransaction settings]⟩

def spiEndTransaction (t : Transport σ) (w : World σ) : World σ :=
  ⟨t.spiEndTransaction w.st, w.trace ++ [Event.spiEndTransaction]⟩

def spiTransfer (t : Transport σ) (byte : Nat) (w : World σ) : Nat × World σ :=
  ((t.spiTransfer byte w.st).1, ⟨(t.spiTransfer byte w.st).2, w.trace ++ [Event.spiTransfer byte]⟩)

def spiTransferBuf (t : Transport σ) (out : List Nat) (count : Nat) (w : World σ) :
    List Nat × World σ :=
  ((t.spiTransferBuf out count w.st).1,
    ⟨(t.spiTransferBuf out count w.st).2, w.trace ++ [Event.spiTransferBuf out count]⟩)

def wireBegin (t : Transport σ) (w : World σ) : World σ :=
  ⟨t.wireBegin w.st, w.trace ++ [Event.wireBegin]⟩

def wireEnd (t : Transport σ) (w : World σ) : World σ :=
  ⟨t.wireEnd w.st, w.trace ++ [Event.wireEnd]⟩

def wireBeginTransmission (t : Transport σ) (address : Nat) (w : World σ) : World σ :=
  ⟨t.wireBeginTransmission address w.st, w.trace ++ [Event.wireBeginTransmission address]⟩

def wireWrite (t : Transport σ) (byte : Nat) (w : World σ) : World σ :=
  ⟨t.wireWrite byte w.st, w.trace ++ [Event.wireWrite byte]⟩

def wireEndTransmission (t : Transport σ) (sendStop : Bool) (w : World σ) : Nat × World σ :=
  ((t.wireEndTransmission sendStop w.st).1,
    ⟨(t.wireEndTransmission sendStop w.st).2, w.trace ++ [Event.wireEndTransmission sendStop]⟩)

def wireRequestFrom (t : Transport σ) (address quantity : Nat) (w : World σ) : Nat × World σ :=
  ((t.wireRequestFrom address quantity w.st).1,
    ⟨(t.wireRequestFrom address quantity w.st).2,
      w.trace ++ [Event.wireRequestFrom address quantity]⟩)

def wireRead (t : Transport σ) (w : World σ) : Int × World σ :=
  ((t.wireRead w.st).1, ⟨(t.wireRead w.st).2, w.trace ++ [Event.wireRead]⟩)

/-! ## The driver instance -/

/-- The transport binding chosen by the constructor.  The first constructor of
the source sets `_spi = NULL` and keeps the bus address, the second sets
`_wire = NULL` and keeps the two pins; `_spi != NULL` is the test made at every
call site. -/
inductive LSM6DSOXClass
  | wire (slaveAddress : Nat)
  | spi (csPin : Int) (irqPin : Int)
deriving DecidableEq, Repr

/-- The value of `_spiSettings`: `SPISettings(10E6, MSBFIRST, SPI_MODE0)`. -/
def spiSettings : SPISettings := ⟨10000000, true, 0⟩

/-- The pre-wired instance `IMU(Wire, LSM6DSOX_ADDRESS)`. -/
def IMU : LSM6DSOXClass := LSM6DSOXClass.wire LSM6DSOX_ADDRESS

/-! ## Register access -/

/-- In-place store of the bytes clocked in by `transfer(buf, count)`. -/
def storeBytes : List Nat → List Nat → List Nat
  | _ :: ds, r :: rs => r % 256 :: storeBytes ds rs
  | ds, [] => ds
  | [], _ :: _ => []

/-- The loop `for (i = 0; i < length; i++) *data++ = _wire->read();` with `n`
iterations left and `i` the index of the next byte; the `int` returned by
`read()` is narrowed to `uint8_t` by the store. -/
def readLoop (t : Transport σ) : Nat → Nat → List Nat → World σ → List Nat × World σ
  | 0, _, data, w => (data, w)
  | n + 1, i, data, w =>
    readLoop t n (i + 1) (data.set i ((wireRead t w).1 % 256).toNat) (wireRead t w).2

/-- Source `int readRegisters(uint8_t address, uint8_t* data, size_t length)`; the
buffer behind `data` is passed in and handed back. -/
def readRegisters (dev : LSM6DSOXClass) (t : Transport σ) (address : Nat) (data : List Nat)
    (length : Nat) (w : World σ) : Int × List Nat × World σ :=
  match dev with
  | LSM6DSOXClass.spi csPin _ =>
    let w := spiBeginTransaction t spiSettings w
    let w := digitalWrite t csPin Level.LOW w
    let w := (spiTransfer t (0x80 ||| address) w).2
    let r := spiTransferBuf t (data.take length) length w
    let data := storeBytes data (r.1.take length)
    let w := digitalWrite t csPin Level.HIGH r.2
    let w := spiEndTransaction t w
    (1, data, w)
  | LSM6DSOXClass.wire slaveAddress =>
    let w := wireBeginTransmission t slaveAddress w
    let w := wireWrite t address w
    let e := wireEndTransmission t false w
    if e.1 ≠ 0 then (-1, data, e.2)
    else
      let q := wireRequestFrom t slaveAddress length e.2
      if q.1 ≠ length then (0, data, q.2)
      else
        let l := readLoop t length 0 data q.2
        (1, l.1, l.2)

/-- Source `int readRegister(uint8_t address)`; `value0` is the indeterminate initial
content of the local `value`. -/
def readRegister (dev : LSM6DSOXClass) (t : Transport σ) (address : Nat) (value0 : Nat)
    (w : World σ) : Int × World σ :=
  let r := readRegisters dev t address [value0] 1 w
  if r.1 ≠ 1 then (-1, r.2.2)
  else ((r.2.1.headD value0 : Nat), r.2.2)

/-- Source `int writeRegister(uint8_t address, uint8_t value)`. -/
def writeRegister (dev : LSM6DSOXClass) (t : Transport σ) (address value : Nat)
    (w : World σ) : Int × World σ :=
  match dev with
  | LSM6DSOXClass.spi csPin _ =>
    let w := spiBeginTransaction t spiSettings w
    let w := digitalWrite t csPin Level.LOW w
    let w := (spiTransfer t address w).2
    let w := (spiTransfer t value w).2
    let w := digitalWrite t csPin Level.HIGH w
    let w := spiEndTransaction t w
    (1, w)
  | LSM6DSOXClass.wire slaveAddress =>
    let w := wireBeginTransmission t slaveAddress w
    let w := wireWrite t address w
    let w := wireWrite t value w
    let e := wireEndTransmission t true w
    if e.1 ≠ 0 then (0, e.2) else (1, e.2)

/-! ## Life cycle -/

/-- Source `void end()`. -/
def end_ (dev : LSM6DSOXClass) (t : Transport σ) (w : World σ) : World σ :=
  match dev with
  | LSM6DSOXClass.spi csPin _ =>
    let w := spiEnd t w
    let w := digitalWrite t csPin Level.LOW w
    pinMode t csPin PinMode.INPUT w
  | LSM6DSOXClass.wire _ =>
    let w := (writeRegister dev t LSM6DSOX_CTRL2_G 0x00 w).2
    let w := (writeRegister dev t LSM6DSOX_CTRL1_XL 0x00 w).2
    wireEnd t w

/-- The transport set-up at the head of `begin()`. -/
def beginTransport (dev : LSM6DSOXClass) (t : Transport σ) (w : World σ) : World σ :=
  match dev with
  | LSM6DSOXClass.spi csPin _ =>
    let w := pinMode t csPin PinMode.OUTPUT w
    let w := digitalWrite t csPin Level.HIGH w
    spiBegin t w
  | LSM6DSOXClass.wire _ => wireBegin t w

/-- Source `int begin()`; `value0` is the indeterminate local of the `readRegister`
call. -/
def begin (dev : LSM6DSOXClass) (t : Transport σ) (value0 : Nat) (w : World σ) :
    Int × World σ :=
  let w := beginTransport dev t w
  let r := readRegister dev t LSM6DSOX_WHO_AM_I_REG value0 w
  if r.1 ≠ 0x6C then (0, end_ dev t r.2)
  else
    let w := (writeRegister dev t LSM6DSOX_CTRL2_G 0x4C r.2).2
    let w := (writeRegister dev t LSM6DSOX_CTRL1_XL 0x4A w).2
    let w := (writeRegister dev t LSM6DSOX_CTRL7_G 0x00 w).2
    let w := (writeRegister dev t LSM6DSOX_CTRL8_XL 0x09 w).2
    (1, w)

/-! ## Availability -/

/-- Source `int accelerationAvailable()`; `&` on `int` is two's-complement. -/
def accelerationAvailable (dev : LSM6DSOXClass) (t : Transport σ) (value0 : Nat)
    (w : World σ) : Int × World σ :=
  let r := readRegister dev t LSM6DSOX_STATUS_REG value0 w
  if Int.land r.1 0x01 ≠ 0 then (1, r.2) else (0, r.2)

/-- Source `int gyroscopeAvailable()`. -/
def gyroscopeAvailable (dev : LSM6DSOXClass) (t : Transport σ) (value0 : Nat)
    (w : World σ) : Int × World σ :=
  let r := readRegister dev t LSM6DSOX_STATUS_REG value0 w
  if Int.land r.1 0x02 ≠ 0 then (1, r.2) else (0, r.2)

/-! ## Floating point

Finite values are carried as exact rationals; the two signed zeros are not
told apart.  `roundBinary p emin` is round-to-nearest, ties-to-even, onto the
numbers `m * 2 ^ e` with `|m| < 2 ^ p` and `e ≥ emin`. -/

inductive FloatVal
  | nan
  | inf (negative : Bool)
  | fin (q : ℚ)
deriving DecidableEq

def roundNearestEven (q : ℚ) : ℤ :=
  if q - ⌊q⌋ < 1 / 2 then ⌊q⌋
  else if 1 / 2 < q - ⌊q⌋ then ⌊q⌋ + 1
  else if ⌊q⌋ % 2 = 0 then ⌊q⌋ else ⌊q⌋ + 1

def roundBinary (p : ℕ) (emin : ℤ) (q : ℚ) : ℚ :=
  if q = 0 then 0
  else roundNearestEven (q / 2 ^ max (Int.log 2 |q| - (p - 1)) emin)
    * 2 ^ max (Int.log 2 |q| - (p - 1)) emin

/-- Rounding of an exact result into a format of precision `p`, least
exponent `emin` and largest exponent `emax`; too large a result overflows. -/
def toFormat (p : ℕ) (emin emax : ℤ) (q : ℚ) : FloatVal :=
  if (2 : ℚ) ^ (emax + 1) ≤ |roundBinary p emin q| then FloatVal.inf (decide (q < 0))
  else FloatVal.fin (roundBinary p emin q)

/-- IEEE 754 binary64, the type `double`. -/
def toDouble (q : ℚ) : FloatVal := toFormat 53 (-1074) 1023 q

/-- IEEE 754 binary32, the type `float`. -/
def toSingle (q : ℚ) : FloatVal := toFormat 24 (-149) 127 q

/-- The `double` product. -/
def dmul : FloatVal → FloatVal → FloatVal
  | FloatVal.fin x, FloatVal.fin y => toDouble (x * y)
  | FloatVal.inf s, FloatVal.fin y => if y = 0 then FloatVal.nan else FloatVal.inf (xor s (decide (y < 0)))
  | FloatVal.fin x, FloatVal.inf s => if x = 0 then FloatVal.nan else FloatVal.inf (xor s (decide (x < 0)))
  | FloatVal.inf s, FloatVal.inf s' => FloatVal.inf (xor s s')
  | _, _ => FloatVal.nan

/-- The `double` quotient. -/
def ddiv : FloatVal → FloatVal → FloatVal
  | FloatVal.fin x, FloatVal.fin y =>
    if y = 0 then (if x = 0 then FloatVal.nan else FloatVal.inf (decide (x < 0)))
    else toDouble (x / y)
  | FloatVal.inf s, FloatVal.fin y => FloatVal.inf (xor s (decide (y < 0)))
  | FloatVal.fin _, FloatVal.inf _ => FloatVal.fin 0
  | _, _ => FloatVal.nan

/-- The conversion made by storing a `double` into a `float&`. -/
def doubleToFloat : FloatVal → FloatVal
  | FloatVal.fin x => toSingle x
  | v => v

/-- The conversion of an `int16_t` operand to `double`, which is exact. -/
def ofInt16 (r : Int) : FloatVal := FloatVal.fin r

/-! ## Samples -/

/-- The value of a 16-bit pattern read as `int16_t`. -/
def toInt16 (u : Nat) : Int :=
  if u % 65536 < 32768 then (u % 65536 : Nat) else ((u % 65536 : Nat) : Int) - 65536

/-- Element `data[i]` of an `int16_t` array stored in the byte buffer `data`. -/
def int16At (data : List Nat) (i : Nat) : Int :=
  toInt16 (data.getD (2 * i) 0 + 256 * data.getD (2 * i + 1) 0)

/-- Expression `data[i] * 4.0 / 32768.0` stored into a `float`. -/
def accelerationValue (r : Int) : FloatVal :=
  doubleToFloat (ddiv (dmul (ofInt16 r) (FloatVal.fin 4)) (FloatVal.fin 32768))

/-- Expression `data[i] * 2000.0 / 32768.0` stored into a `float`. -/
def gyroscopeValue (r : Int) : FloatVal :=
  doubleToFloat (ddiv (dmul (ofInt16 r) (FloatVal.fin 2000)) (FloatVal.fin 32768))

/-- The result of a sample read: the returned `int` and the outputs. -/
structure Sample where
  ret : Int
  x : FloatVal
  y : FloatVal
  z : FloatVal
deriving DecidableEq

/-- Source `int readAcceleration(float& x, float& y, float& z)`; `data0` is the
indeterminate initial content of the six bytes of `int16_t data[3]`. -/
def readAcceleration (dev : LSM6DSOXClass) (t : Transport σ) (data0 : Fin 6 → Nat)
    (w : World σ) : Sample × World σ :=
  let r := readRegisters dev t LSM6DSOX_OUTX_L_XL (List.ofFn data0) 6 w
  if r.1 = 0 then (⟨0, FloatVal.nan, FloatVal.nan, FloatVal.nan⟩, r.2.2)
  else
    (⟨1, accelerationValue (int16At r.2.1 0), accelerationValue (int16At r.2.1 1),
      accelerationValue (int16At r.2.1 2)⟩, r.2.2)

/-- Source `int readGyroscope(float& x, float& y, float& z)`. -/
def readGyroscope (dev : LSM6DSOXClass) (t : Transport σ) (data0 : Fin 6 → Nat)
    (w : World σ) : Sample × World σ :=
  let r := readRegisters dev t LSM6DSOX_OUTX_L_G (List.ofFn data0) 6 w
  if r.1 = 0 then (⟨0, FloatVal.nan, FloatVal.nan, FloatVal.nan⟩, r.2.2)
  else
    (⟨1, gyroscopeValue (int16At r.2.1 0), gyroscopeValue (int16At r.2.1 1),
      gyroscopeValue (int16At r.2.1 2)⟩, r.2.2)

/-- Source `float accelerationSampleRate()`. -/
def accelerationSampleRate : FloatVal := FloatVal.fin 104

/-- Source `float gyroscopeSampleRate()`. -/
def gyroscopeSampleRate : FloatVal := FloatVal.fin 104

/-! ## Observations on traces -/

/-- The calls made between the world `w` and the later world `w'`. -/
def issued (w w' : World σ) : List Event := w'.trace.drop w.trace.length

/-- The register writes found in a run of calls, as (address, value) pairs in
order: on the bus a transmission of exactly two bytes closed with a stop, on
the peripheral two single-byte transfers framed by chip-select low and high. -/
def registerWrites : List Event → List (Nat × Nat)
  | Event.wireBeginTransmission _ :: Event.wireWrite a :: Event.wireWrite v ::
      Event.wireEndTransmission true :: rest => (a, v) :: registerWrites rest
  | Event.digitalWrite _ Level.LOW :: Event.spiTransfer a :: Event.spiTransfer v ::
      Event.digitalWrite _ Level.HIGH :: rest => (a, v) :: registerWrites rest
  | _ :: rest => registerWrites rest
  | [] => []


/-- The calls of one `writeRegister(address, value)`. -/
def writeFrame (dev : LSM6DSOXClass) (address value : Nat) : List Event :=
  match dev with
  | LSM6DSOXClass.spi csPin _ =>
    [Event.spiBeginTransaction spiSettings, Event.digitalWrite csPin Level.LOW,
      Event.spiTransfer address, Event.spiTransfer value,
      Event.digitalWrite csPin Level.HIGH, Event.spiEndTransaction]
  | LSM6DSOXClass.wire slaveAddress =>
    [Event.wireBeginTransmission slaveAddress, Event.wireWrite address, Event.wireWrite value,
      Event.wireEndTransmission true]

/-- The calls of one `readRegisters` on the peripheral path. -/
def spiReadFrame (csPin : Int) (address : Nat) (data : List Nat) (length : Nat) : List Event :=
  [Event.spiBeginTransaction spiSettings, Event.digitalWrite csPin Level.LOW,
    Event.spiTransfer (0x80 ||| address), Event.spiTransferBuf (data.take length) length,
    Event.digitalWrite csPin Level.HIGH, Event.spiEndTransaction]


/-! ## Mock transports

The scenarios of the specification run the driver against a simulated device.
The repository has no such fixture; the ones below follow the device protocol
as the specification states it. -/

/-- Modelled from the spec: the state of the mock bus transport of the
round-trip scenario, a device with a register file behind a two-wire bus.  The
first byte of a transmission sets the register pointer, further bytes are
stored from there on, and a read request is served from the pointer. -/
structure MockBus where
  regs : Nat → Nat
  pointer : Nat
  tx : List Nat
  rx : List Nat

/-- Modelled from the spec: storing a run of bytes into consecutive registers
of a mock device. -/
def storeRun (regs : Nat → Nat) : Nat → List Nat → Nat → Nat
  | _, [] => regs
  | a, v :: vs => storeRun (Function.update regs (a % 256) (v % 256)) (a + 1) vs

/-- Modelled from the spec: the mock bus transport; the peripheral and GPIO
calls, which the bus path never makes, leave it alone. -/
def mockBus : Transport MockBus where
  pinMode := fun _ _ s => s
  digitalWrite := fun _ _ s => s
  spiBegin := fun s => s
  spiEnd := fun s => s
  spiBeginTransaction := fun _ s => s
  spiEndTransaction := fun s => s
  spiTransfer := fun _ s => (0, s)
  spiTransferBuf := fun out _ s => (out, s)
  wireBegin := fun s => s
  wireEnd := fun s => s
  wireBeginTransmission := fun _ s => { s with tx := [] }
  wireWrite := fun b s => { s with tx := s.tx ++ [b] }
  wireEndTransmission := fun _ s =>
    match s.tx with
    | [] => (0, s)
    | a :: vs =>
      (0, { regs := storeRun s.regs a vs, pointer := (a + vs.length) % 256, tx := [], rx := s.rx })
  wireRequestFrom := fun _ n s =>
    (n, { s with rx := (List.range n).map (fun i => s.regs ((s.pointer + i) % 256)),
                 pointer := (s.pointer + n) % 256 })
  wireRead := fun s =>
    match s.rx with
    | [] => (-1, s)
    | b :: rest => ((b : Int), { s with rx := rest })

/-- Modelled from the spec: the state of the mock peripheral transport, a
device with a register file behind a chip-select framed link.  Bit 7 of the
first byte of a frame selects a read, its low seven bits the register. -/
structure MockPeripheral where
  regs : Nat → Nat
  selected : Bool
  header : Option Nat
  offset : Nat

/-- Modelled from the spec: one byte exchanged with the mock peripheral. -/
def MockPeripheral.exchange (b : Nat) (s : MockPeripheral) : Nat × MockPeripheral :=
  if s.selected then
    match s.header with
    | none => (0, { s with header := some b, offset := 0 })
    | some h =>
      if h.testBit 7 then (s.regs ((h % 128 + s.offset) % 128), { s with offset := s.offset + 1 })
      else (0, { s with regs := Function.update s.regs ((h % 128 + s.offset) % 128) (b % 256),
                        offset := s.offset + 1 })
  else (0, s)

/-- Modelled from the spec: a run of bytes exchanged with the mock peripheral. -/
def MockPeripheral.exchangeAll : List Nat → MockPeripheral → List Nat × MockPeripheral
  | [], s => ([], s)
  | b :: bs, s =>
    ((MockPeripheral.exchange b s).1 :: (MockPeripheral.exchangeAll bs (MockPeripheral.exchange b s).2).1,
      (MockPeripheral.exchangeAll bs (MockPeripheral.exchange b s).2).2)

/-- Modelled from the spec: the mock peripheral transport; chip-select low
opens a frame and chip-select high closes it. -/
def mockPeripheral : Transport MockPeripheral where
  pinMode := fun _ _ s => s
  digitalWrite := fun _ level s =>
    match level with
    | Level.LOW => { s with selected := true, header := none, offset := 0 }
    | Level.HIGH => { s with selected := false }
  spiBegin := fun s => s
  spiEnd := fun s => s
  spiBeginTransaction := fun _ s => s
  spiEndTransaction := fun s => s
  spiTransfer := fun b s => MockPeripheral.exchange b s
  spiTransferBuf := fun out count s => MockPeripheral.exchangeAll (out.take count) s
  wireBegin := fun s => s
  wireEnd := fun s => s
  wireBeginTransmission := fun _ s => s
  wireWrite := fun _ s => s
  wireEndTransmission := fun _ s => (0, s)
  wireRequestFrom := fun _ _ s => (0, s)
  wireRead := fun s => (-1, s)

/-- A mock peripheral at rest with every register zero. -/
def MockPeripheral.idle : MockPeripheral := ⟨fun _ => 0, false, none, 0⟩

/-- A mock bus device at rest with every register zero. -/
def MockBus.idle : MockBus := ⟨fun _ => 0, 0, [], []⟩

/-- A bus on which no device answers: the address is not acknowledged
(`endTransmission` status 2), nothing is granted and nothing can be read. -/
def absentBus : Transport Unit where
  pinMode := fun _ _ s => s
  digitalWrite := fun _ _ s => s
  spiBegin := fun s => s
  spiEnd := fun s => s
  spiBeginTransaction := fun _ s => s
  spiEndTransaction := fun s => s
  spiTransfer := fun _ s => (0, s)
  spiTransferBuf := fun out _ s => (out, s)
  wireBegin := fun s => s
  wireEnd := fun s => s
  wireBeginTransmission := fun _ s => s
  wireWrite := fun _ s => s
  wireEndTransmission := fun _ s => (2, s)
  wireRequestFrom := fun _ _ s => (0, s)
  wireRead := fun s => (-1, s)

/-- A bus transport that grants one byte more than it is asked for. -/
def generousBus : Transport Unit where
  pinMode := fun _ _ s => s
  digitalWrite := fun _ _ s => s
  spiBegin := fun s => s
  spiEnd := fun s => s
  spiBeginTransaction := fun _ s => s
  spiEndTransaction := fun s => s
  spiTransfer := fun _ s => (0, s)
  spiTransferBuf := fun out _ s => (out, s)
  wireBegin := fun s => s
  wireEnd := fun s => s
  wireBeginTransmission := fun _ s => s
  wireWrite := fun _ s => s
  wireEndTransmission := fun _ s => (0, s)
  wireRequestFrom := fun _ n s => (n + 1, s)
  wireRead := fun s => (0x5A, s)

/-- The calls of a `readRegisters(address, data, length)` that runs to its
end. -/
def readFrame (dev : LSM6DSOXClass) (address : Nat) (data : List Nat) (length : Nat) :
    List Event :=
  match dev with
  | LSM6DSOXClass.spi csPin _ => spiReadFrame csPin address data length
  | LSM6DSOXClass.wire slaveAddress =>
    [Event.wireBeginTransmission slaveAddress, Event.wireWrite address,
      Event.wireEndTransmission false, Event.wireRequestFrom slaveAddress length]
      ++ List.replicate length Event.wireRead

/-- The calls of the transport set-up of `begin()`. -/
def beginCalls (dev : LSM6DSOXClass) : List Event :=
  match dev with
  | LSM6DSOXClass.spi csPin _ =>
    [Event.pinMode csPin PinMode.OUTPUT, Event.digitalWrite csPin Level.HIGH, Event.spiBegin]
  | LSM6DSOXClass.wire _ => [Event.wireBegin]

/-- The world after the address phase of a bus read: `beginTransmission`,
`write(address)`, `endTransmission(false)`. -/
def afterAddress (t : Transport σ) (slaveAddress address : Nat) (w : World σ) : Nat × World σ :=
  wireEndTransmission t false (wireWrite t address (wireBeginTransmission t slaveAddress w))

/-- The world after `k` successive calls of `read()`. -/
def afterReads (t : Transport σ) : Nat → World σ → World σ
  | 0, w => w
  | k + 1, w => afterReads t k (wireRead t w).2

/-- The value returned by the call of `read()` that follows `k` earlier ones. -/
def nthRead (t : Transport σ) (k : Nat) (w : World σ) : Int := (wireRead t (afterReads t k w)).1

/-- A mock bus device at rest with the given register contents. -/
def MockBus.withRegs (regs : Nat → Nat) : MockBus := ⟨regs, 0, [], []⟩

/-- A mock peripheral at rest with the given register contents. -/
def MockPeripheral.withRegs (regs : Nat → Nat) : MockPeripheral := ⟨regs, false, none, 0⟩

/-- A mock bus device at rest whose identity register 0x0F holds 0x6C and
whose other registers are zero. -/
def MockBus.genuine : MockBus := MockBus.withRegs (fun a => if a = 0x0F then 0x6C else 0)

/-- The register writes made by `end()`: the two zero writes on the bus path,
none on the peripheral path. -/
def endWrites : LSM6DSOXClass → List (Nat × Nat)
  | LSM6DSOXClass.wire _ => [(0x11, 0x00), (0x10, 0x00)]
  | LSM6DSOXClass.spi _ _ => []
/-! # Theorems -/

/-! ## Traces -/

theorem issued_of_trace (w w' : World σ) (evs : List Event) (h : w'.trace = w.trace ++ evs) :
    issued w w' = evs := by
  simp [issued, h]

theorem writeRegister_trace (dev : LSM6DSOXClass) (t : Transport σ) (a v : Nat) (w : World σ) :
    (writeRegister dev t a v w).2.trace = w.trace ++ writeFrame dev a v := by
  cases dev with
  | wire s =>
    simp only [writeRegister, writeFrame]
    split <;> simp [wireEndTransmission, wireWrite, wireBeginTransmission]
  | spi cs irq =>
    simp [writeRegister, writeFrame, spiBeginTransaction, digitalWrite, spiTransfer,
      spiEndTransaction]

theorem readRegisters_spi_trace (cs irq : Int) (t : Transport σ) (a : Nat) (data : List Nat)
    (n : Nat) (w : World σ) :
    (readRegisters (LSM6DSOXClass.spi cs irq) t a data n w).2.2.trace
      = w.trace ++ spiReadFrame cs a data n := by
  simp [readRegisters, spiReadFrame, spiBeginTransaction, digitalWrite, spiTransfer,
    spiTransferBuf, spiEndTransaction]

theorem end_trace_wire (s : Nat) (t : Transport σ) (w : World σ) :
    (end_ (LSM6DSOXClass.wire s) t w).trace
      = w.trace ++ (writeFrame (LSM6DSOXClass.wire s) 0x11 0x00
          ++ writeFrame (LSM6DSOXClass.wire s) 0x10 0x00 ++ [Event.wireEnd]) := by
  simp [end_, wireEnd, writeRegister_trace, LSM6DSOX_CTRL2_G, LSM6DSOX_CTRL1_XL]

theorem end_trace_spi (cs irq : Int) (t : Transport σ) (w : World σ) :
    (end_ (LSM6DSOXClass.spi cs irq) t w).trace
      = w.trace ++ [Event.spiEnd, Event.digitalWrite cs Level.LOW,
          Event.pinMode cs PinMode.INPUT] := by
  simp [end_, spiEnd, digitalWrite, pinMode]

/-! ## end() -/

/-- C8: on the bus path `end()` makes exactly the calls of the register writes
(0x11, 0x00) and (0x10, 0x00), in that order, and only then `_wire->end()`; on
the peripheral path it makes no register write: `_spi->end()`, chip-select low,
pin to input, in that order. -/
theorem end_calls (t : Transport σ) (w : World σ) (s : Nat) (cs irq : Int) :
    issued w (end_ (LSM6DSOXClass.wire s) t w)
        = [Event.wireBeginTransmission s, Event.wireWrite 0x11, Event.wireWrite 0x00,
            Event.wireEndTransmission true,
            Event.wireBeginTransmission s, Event.wireWrite 0x10, Event.wireWrite 0x00,
            Event.wireEndTransmission true,
            Event.wireEnd]
      ∧ registerWrites (issued w (end_ (LSM6DSOXClass.wire s) t w)) = [(0x11, 0x00), (0x10, 0x00)]
      ∧ (end_ (LSM6DSOXClass.wire s) t w).st
          = t.wireEnd (writeRegister (LSM6DSOXClass.wire s) t 0x10 0x00
              (writeRegister (LSM6DSOXClass.wire s) t 0x11 0x00 w).2).2.st
      ∧ issued w (end_ (LSM6DSOXClass.spi cs irq) t w)
          = [Event.spiEnd, Event.digitalWrite cs Level.LOW, Event.pinMode cs PinMode.INPUT]
      ∧ registerWrites (issued w (end_ (LSM6DSOXClass.spi cs irq) t w)) = []
      ∧ (end_ (LSM6DSOXClass.spi cs irq) t w).st
          = t.pinMode cs PinMode.INPUT (t.digitalWrite cs Level.LOW (t.spiEnd w.st)) := by
  have hw := issued_of_trace w _ _ (end_trace_wire s t w)
  have hs := issued_of_trace w _ _ (end_trace_spi cs irq t w)
  refine ⟨?_, ?_, ?_, ?_, ?_, ?_⟩
  · rw [hw]; rfl
  · rw [hw]; rfl
  · rfl
  · rw [hs]
  · rw [hs]; rfl
  · rfl

/-! ## Peripheral framing -/

/-- C7, as amended: on the peripheral path, for every address, value and
length, `readRegisters` on `b` sends `0x80 | b`, a byte with bit 7 set, then
makes one buffer transfer of `n` bytes, and `writeRegister` on `a` sends exactly
the two bytes `a`, unchanged, and `v`; each is framed by one chip-select low
and one chip-select high inside one transaction, and each returns 1.  When `a`
is below 0x80 the first byte of the write frame has bit 7 clear and differs
from the first byte of every read frame; when `a` is an 8-bit address from
0x80 on, it has bit 7 set. -/
theorem spi_frames (t : Transport σ) (w : World σ) (cs irq : Int) (a b v n : Nat)
    (data : List Nat) :
    (readRegisters (LSM6DSOXClass.spi cs irq) t b data n w).1 = 1
      ∧ issued w (readRegisters (LSM6DSOXClass.spi cs irq) t b data n w).2.2
          = [Event.spiBeginTransaction spiSettings, Event.digitalWrite cs Level.LOW,
              Event.spiTransfer (0x80 ||| b), Event.spiTransferBuf (data.take n) n,
              Event.digitalWrite cs Level.HIGH, Event.spiEndTransaction]
      ∧ (0x80 ||| b).testBit 7 = true
      ∧ (writeRegister (LSM6DSOXClass.spi cs irq) t a v w).1 = 1
      ∧ issued w (writeRegister (LSM6DSOXClass.spi cs irq) t a v w).2
          = [Event.spiBeginTransaction spiSettings, Event.digitalWrite cs Level.LOW,
              Event.spiTransfer a, Event.spiTransfer v,
              Event.digitalWrite cs Level.HIGH, Event.spiEndTransaction]
      ∧ (a < 128 → a.testBit 7 = false ∧ ∀ c : Nat, a ≠ 0x80 ||| c)
      ∧ (128 ≤ a → a < 256 → a.testBit 7 = true) := by
  have hb : ∀ c : Nat, (0x80 ||| c).testBit 7 = true := by
    intro c
    have h7 : Nat.testBit 128 7 = true := by decide
    rw [Nat.testBit_or, h7]; rfl
  refine ⟨rfl, ?_, hb b, rfl, ?_, ?_, ?_⟩
  · exact issued_of_trace w _ _ (readRegisters_spi_trace cs irq t b data n w)
  · exact issued_of_trace w _ _ (writeRegister_trace _ t a v w)
  · intro ha
    have ha7 : a.testBit 7 = false := Nat.testBit_eq_false_of_lt (by norm_num; exact ha)
    refine ⟨ha7, ?_⟩
    intro c h
    rw [h, hb c] at ha7
    exact Bool.noConfusion ha7
  · intro hlo hhi
    rw [Nat.testBit_to_div_mod]
    have h : a / 2 ^ 7 % 2 = 1 := by omega
    rw [h]
    rfl

theorem spi_frames_witness :
    (writeRegister (LSM6DSOXClass.spi 10 2) mockPeripheral 0x11 0x4C
        ⟨MockPeripheral.idle, []⟩).1 = 1
      ∧ (readRegisters (LSM6DSOXClass.spi 10 2) mockPeripheral 0x0F [0] 1
          ⟨MockPeripheral.idle, []⟩).1 = 1
      ∧ Nat.testBit 0x11 7 = false
      ∧ Nat.testBit 0x80 7 = true :=
  ⟨(spi_frames mockPeripheral ⟨MockPeripheral.idle, []⟩ 10 2 0x11 0x0F 0x4C 1 [0]).2.2.2.1,
    (spi_frames mockPeripheral ⟨MockPeripheral.idle, []⟩ 10 2 0x11 0x0F 0x4C 1 [0]).1,
    ((spi_frames mockPeripheral ⟨MockPeripheral.idle, []⟩ 10 2 0x11 0x0F 0x4C 1
      [0]).2.2.2.2.2.1 (by decide)).1,
    (spi_frames mockPeripheral ⟨MockPeripheral.idle, []⟩ 10 2 0x80 0x0F 0x4C 1
      [0]).2.2.2.2.2.2 (by decide) (by decide)⟩

/-- C7 as stated fails at address 0x80: the first byte of the write frame is
0x80, which has bit 7 set and is also the first byte of the read frame of
register 0x00. -/
theorem spi_write_0x80_first_byte :
    (issued (⟨MockPeripheral.idle, []⟩ : World MockPeripheral)
        (writeRegister (LSM6DSOXClass.spi 10 2) mockPeripheral 0x80 0x01
          ⟨MockPeripheral.idle, []⟩).2).get? 2 = some (Event.spiTransfer 0x80)
      ∧ Nat.testBit 0x80 7 = true
      ∧ (issued (⟨MockPeripheral.idle, []⟩ : World MockPeripheral)
          (readRegisters (LSM6DSOXClass.spi 10 2) mockPeripheral 0x00 [0] 1
            ⟨MockPeripheral.idle, []⟩).2.2).get? 2 = some (Event.spiTransfer 0x80) := by
  refine ⟨?_, by decide, ?_⟩
  · rw [issued_of_trace _ _ _ (writeRegister_trace _ _ _ _ _)]; rfl
  · rw [issued_of_trace _ _ _ (readRegisters_spi_trace _ _ _ _ _ _ _)]; rfl

/-! ## readRegisters on the bus -/

theorem readLoop_world (t : Transport σ) (n i : Nat) (data : List Nat) (w : World σ) :
    (readLoop t n i data w).2 = afterReads t n w := by
  induction n generalizing i data w with
  | zero => rfl
  | succ n ih => simp only [readLoop, afterReads]; exact ih _ _ _

theorem afterReads_trace (t : Transport σ) (n : Nat) (w : World σ) :
    (afterReads t n w).trace = w.trace ++ List.replicate n Event.wireRead := by
  induction n generalizing w with
  | zero => simp [afterReads]
  | succ n ih =>
    simp only [afterReads, ih, wireRead, List.replicate_succ, List.append_assoc,
      List.singleton_append]

theorem afterAddress_trace (t : Transport σ) (s a : Nat) (w : World σ) :
    (afterAddress t s a w).2.trace
      = w.trace ++ [Event.wireBeginTransmission s, Event.wireWrite a,
          Event.wireEndTransmission false] := by
  simp [afterAddress, wireEndTransmission, wireWrite, wireBeginTransmission]

theorem readRegisters_wire_error (t : Transport σ) (s a n : Nat) (data : List Nat) (w : World σ)
    (h : (afterAddress t s a w).1 ≠ 0) :
    readRegisters (LSM6DSOXClass.wire s) t a data n w = (-1, data, (afterAddress t s a w).2) := by
  unfold afterAddress at h
  simp only [readRegisters, afterAddress]
  rw [if_pos h]

theorem readRegisters_wire_short (t : Transport σ) (s a n : Nat) (data : List Nat) (w : World σ)
    (h : (afterAddress t s a w).1 = 0)
    (hq : (wireRequestFrom t s n (afterAddress t s a w).2).1 ≠ n) :
    readRegisters (LSM6DSOXClass.wire s) t a data n w
      = (0, data, (wireRequestFrom t s n (afterAddress t s a w).2).2) := by
  unfold afterAddress at h hq
  simp only [readRegisters, afterAddress]
  rw [if_neg (by simpa using h), if_pos hq]

theorem readRegisters_wire_ok (t : Transport σ) (s a n : Nat) (data : List Nat) (w : World σ)
    (h : (afterAddress t s a w).1 = 0)
    (hq : (wireRequestFrom t s n (afterAddress t s a w).2).1 = n) :
    readRegisters (LSM6DSOXClass.wire s) t a data n w
      = (1, (readLoop t n 0 data (wireRequestFrom t s n (afterAddress t s a w).2).2).1,
          afterReads t n (wireRequestFrom t s n (afterAddress t s a w).2).2) := by
  unfold afterAddress at h hq
  simp only [readRegisters, afterAddress]
  rw [if_neg (by simpa using h), if_neg (by simpa using hq), readLoop_world]

theorem nthRead_succ (t : Transport σ) (k : Nat) (w : World σ) :
    nthRead t (k + 1) w = nthRead t k (wireRead t w).2 := rfl

theorem readLoop_length (t : Transport σ) (n i : Nat) (data : List Nat) (w : World σ) :
    (readLoop t n i data w).1.length = data.length := by
  induction n generalizing i data w with
  | zero => rfl
  | succ n ih => simp only [readLoop]; rw [ih]; simp

theorem readLoop_getElem? (t : Transport σ) (n i : Nat) (data : List Nat) (w : World σ)
    (j : Nat) :
    (readLoop t n i data w).1[j]?
      = if i ≤ j ∧ j < i + n ∧ j < data.length then some ((nthRead t (j - i) w % 256).toNat)
        else data[j]? := by
  induction n generalizing i data w with
  | zero =>
    have : ¬ (i ≤ j ∧ j < i + 0 ∧ j < data.length) := by omega
    simp only [readLoop, if_neg this]
  | succ n ih =>
    simp only [readLoop]
    rw [ih, List.length_set, List.getElem?_set]
    by_cases hij : i = j
    · subst hij
      have h1 : ¬ (i + 1 ≤ i ∧ i < i + 1 + n ∧ i < data.length) := by omega
      rw [if_neg h1]
      by_cases hl : i < data.length
      · have h2 : i ≤ i ∧ i < i + (n + 1) ∧ i < data.length := by omega
        simp only [if_pos h2, if_pos hl, if_true, Nat.sub_self]
        rfl
      · have h2 : ¬ (i ≤ i ∧ i < i + (n + 1) ∧ i < data.length) := by omega
        simp only [if_neg h2, if_neg hl, if_true]
        exact (List.getElem?_eq_none (by omega)).symm
    · rw [if_neg hij]
      by_cases h1 : i + 1 ≤ j ∧ j < i + 1 + n ∧ j < data.length
      · have h2 : i ≤ j ∧ j < i + (n + 1) ∧ j < data.length := by omega
        rw [if_pos h1, if_pos h2]
        have : j - i = (j - (i + 1)) + 1 := by omega
        rw [this, nthRead_succ]
      · have h2 : ¬ (i ≤ j ∧ j < i + (n + 1) ∧ j < data.length) := by omega
        rw [if_neg h1, if_neg h2]

/-- C9, as amended: on the bus path `readRegisters` returns -1 exactly when
`endTransmission(false)` reports a non-zero status, and then nothing is
requested and the buffer is unchanged; otherwise it returns 0 when the number
of bytes granted differs from `length`, the buffer unchanged; otherwise it
returns 1, byte `i` of the buffer is the result of the `i`-th `read()` narrowed
to eight bits for every `i < length`, the rest of the buffer is unchanged, and
exactly `length` calls of `read()` are made. -/
theorem readRegisters_bus_outcomes (t : Transport σ) (s a n : Nat) (data : List Nat)
    (w : World σ) :
    ((readRegisters (LSM6DSOXClass.wire s) t a data n w).1 = -1
        ↔ (afterAddress t s a w).1 ≠ 0)
      ∧ ((afterAddress t s a w).1 ≠ 0 →
          readRegisters (LSM6DSOXClass.wire s) t a data n w
              = (-1, data, (afterAddress t s a w).2)
            ∧ issued w (readRegisters (LSM6DSOXClass.wire s) t a data n w).2.2
              = [Event.wireBeginTransmission s, Event.wireWrite a,
                  Event.wireEndTransmission false])
      ∧ ((afterAddress t s a w).1 = 0 →
          (wireRequestFrom t s n (afterAddress t s a w).2).1 ≠ n →
          readRegisters (LSM6DSOXClass.wire s) t a data n w
            = (0, data, (wireRequestFrom t s n (afterAddress t s a w).2).2))
      ∧ ((afterAddress t s a w).1 = 0 →
          (wireRequestFrom t s n (afterAddress t s a w).2).1 = n →
          (readRegisters (LSM6DSOXClass.wire s) t a data n w).1 = 1
            ∧ (∀ i, i < n → i < data.length →
                (readRegisters (LSM6DSOXClass.wire s) t a data n w).2.1[i]?
                  = some ((nthRead t i (wireRequestFrom t s n (afterAddress t s a w).2).2
                      % 256).toNat))
            ∧ (∀ i, n ≤ i →
                (readRegisters (LSM6DSOXClass.wire s) t a data n w).2.1[i]? = data[i]?)
            ∧ (readRegisters (LSM6DSOXClass.wire s) t a data n w).2.1.length = data.length
            ∧ issued (wireRequestFrom t s n (afterAddress t s a w).2).2
                (readRegisters (LSM6DSOXClass.wire s) t a data n w).2.2
              = List.replicate n Event.wireRead) := by
  refine ⟨?_, ?_, ?_, ?_⟩
  · by_cases h : (afterAddress t s a w).1 = 0
    · by_cases hq : (wireRequestFrom t s n (afterAddress t s a w).2).1 = n
      · rw [readRegisters_wire_ok t s a n data w h hq]; simp [h]
      · rw [readRegisters_wire_short t s a n data w h hq]; simp [h]
    · rw [readRegisters_wire_error t s a n data w h]; simp [h]
  · intro h
    rw [readRegisters_wire_error t s a n data w h]
    exact ⟨rfl, issued_of_trace _ _ _ (afterAddress_trace t s a w)⟩
  · intro h hq
    exact readRegisters_wire_short t s a n data w h hq
  · intro h hq
    rw [readRegisters_wire_ok t s a n data w h hq]
    refine ⟨rfl, ?_, ?_, readLoop_length _ _ _ _ _, ?_⟩
    · intro i hi hl
      show (readLoop t n 0 data _).1[i]? = _
      rw [readLoop_getElem?, if_pos (by omega)]
      rfl
    · intro i hi
      show (readLoop t n 0 data _).1[i]? = _
      rw [readLoop_getElem?, if_neg (by omega)]
    · exact issued_of_trace _ _ _ (afterReads_trace t n _)

/-! ## begin() -/

theorem readRegister_world (dev : LSM6DSOXClass) (t : Transport σ) (a v0 : Nat) (w : World σ) :
    (readRegister dev t a v0 w).2 = (readRegisters dev t a [v0] 1 w).2.2 := by
  simp only [readRegister]
  split <;> rfl

theorem readRegister_ok_of_ne (dev : LSM6DSOXClass) (t : Transport σ) (a v0 : Nat)
    (w : World σ) (h : (readRegister dev t a v0 w).1 ≠ -1) :
    (readRegisters dev t a [v0] 1 w).1 = 1 := by
  by_contra hne
  apply h
  unfold readRegister
  rw [if_pos hne]

theorem readRegisters_trace_ok (dev : LSM6DSOXClass) (t : Transport σ) (a n : Nat)
    (data : List Nat) (w : World σ) (h : (readRegisters dev t a data n w).1 = 1) :
    (readRegisters dev t a data n w).2.2.trace = w.trace ++ readFrame dev a data n := by
  cases dev with
  | spi cs irq => exact readRegisters_spi_trace cs irq t a data n w
  | wire s =>
    by_cases he : (afterAddress t s a w).1 = 0
    · by_cases hq : (wireRequestFrom t s n (afterAddress t s a w).2).1 = n
      · rw [readRegisters_wire_ok t s a n data w he hq]
        simp [afterReads_trace, wireRequestFrom, afterAddress_trace, readFrame]
      · rw [readRegisters_wire_short t s a n data w he hq] at h
        simp at h
    · rw [readRegisters_wire_error t s a n data w he] at h
      simp at h

theorem beginTransport_trace (dev : LSM6DSOXClass) (t : Transport σ) (w : World σ) :
    (beginTransport dev t w).trace = w.trace ++ beginCalls dev := by
  cases dev <;> simp [beginTransport, beginCalls, wireBegin, pinMode, digitalWrite, spiBegin]

/-- C2: when the read of the identity register 0x0F yields 0x6C, on either
transport and whatever each call of the transport answers, `begin()` returns 1,
and after the transport set-up and the identity read it makes the calls of the
register writes (0x11, 0x4C), (0x10, 0x4A), (0x16, 0x00), (0x17, 0x09), in that
order, and no other call. -/
theorem begin_configures (dev : LSM6DSOXClass) (t : Transport σ) (value0 : Nat) (w : World σ)
    (hid : (readRegister dev t LSM6DSOX_WHO_AM_I_REG value0 (beginTransport dev t w)).1 = 0x6C) :
    (begin dev t value0 w).1 = 1
      ∧ issued w (begin dev t value0 w).2
          = beginCalls dev ++ readFrame dev 0x0F [value0] 1
              ++ writeFrame dev 0x11 0x4C ++ writeFrame dev 0x10 0x4A
              ++ writeFrame dev 0x16 0x00 ++ writeFrame dev 0x17 0x09
      ∧ registerWrites (issued w (begin dev t value0 w).2)
          = [(0x11, 0x4C), (0x10, 0x4A), (0x16, 0x00), (0x17, 0x09)] := by
  have hok : (readRegisters dev t LSM6DSOX_WHO_AM_I_REG [value0] 1 (beginTransport dev t w)).1 = 1 :=
    readRegister_ok_of_ne dev t _ value0 _ (by rw [hid]; decide)
  have htr : (begin dev t value0 w).2.trace
      = w.trace ++ (beginCalls dev ++ readFrame dev 0x0F [value0] 1
              ++ writeFrame dev 0x11 0x4C ++ writeFrame dev 0x10 0x4A
              ++ writeFrame dev 0x16 0x00 ++ writeFrame dev 0x17 0x09) := by
    simp only [begin]
    rw [if_neg (not_not.mpr hid)]
    simp only [writeRegister_trace, readRegister_world,
      readRegisters_trace_ok dev t _ 1 [value0] _ hok, beginTransport_trace]
    simp only [LSM6DSOX_WHO_AM_I_REG, LSM6DSOX_CTRL2_G, LSM6DSOX_CTRL1_XL, LSM6DSOX_CTRL7_G,
      LSM6DSOX_CTRL8_XL, List.append_assoc]
  have his := issued_of_trace w _ _ htr
  refine ⟨?_, his, ?_⟩
  · simp only [begin]
    rw [if_neg (not_not.mpr hid)]
  · rw [his]
    cases dev <;> rfl

theorem begin_configures_witness :
    (begin (LSM6DSOXClass.wire 0x6A) mockBus 0 ⟨MockBus.genuine, []⟩).1 = 1
      ∧ registerWrites (issued ⟨MockBus.genuine, []⟩
          (begin (LSM6DSOXClass.wire 0x6A) mockBus 0 ⟨MockBus.genuine, []⟩).2)
        = [(0x11, 0x4C), (0x10, 0x4A), (0x16, 0x00), (0x17, 0x09)] :=
  ⟨(begin_configures (LSM6DSOXClass.wire 0x6A) mockBus 0 ⟨MockBus.genuine, []⟩ (by decide)).1,
    (begin_configures (LSM6DSOXClass.wire 0x6A) mockBus 0 ⟨MockBus.genuine, []⟩ (by decide)).2.2⟩

theorem readRegisters_wire_trace_cases (t : Transport σ) (s a n : Nat) (data : List Nat)
    (w : World σ) :
    (readRegisters (LSM6DSOXClass.wire s) t a data n w).2.2.trace
        = w.trace ++ [Event.wireBeginTransmission s, Event.wireWrite a,
            Event.wireEndTransmission false]
      ∨ (readRegisters (LSM6DSOXClass.wire s) t a data n w).2.2.trace
        = w.trace ++ [Event.wireBeginTransmission s, Event.wireWrite a,
            Event.wireEndTransmission false, Event.wireRequestFrom s n]
      ∨ (readRegisters (LSM6DSOXClass.wire s) t a data n w).2.2.trace
        = w.trace ++ readFrame (LSM6DSOXClass.wire s) a data n := by
  by_cases he : (afterAddress t s a w).1 = 0
  · by_cases hq : (wireRequestFrom t s n (afterAddress t s a w).2).1 = n
    · right; right
      rw [readRegisters_wire_ok t s a n data w he hq]
      simp [afterReads_trace, wireRequestFrom, afterAddress_trace, readFrame]
    · right; left
      rw [readRegisters_wire_short t s a n data w he hq]
      simp [wireRequestFrom, afterAddress_trace]
  · left
    rw [readRegisters_wire_error t s a n data w he]
    exact afterAddress_trace t s a w

/-- C3: when the read of the identity register yields anything but 0x6C (another
byte, or the failure value -1), on either transport, `begin()` returns 0, its
final world is that of `end()` run right after the identity read, and the
register writes it has made are the two zero writes of `end()` on the bus path
and none on the peripheral path: no write carries a non-zero value and none of
the four configuration writes is made. -/
theorem begin_rejects (dev : LSM6DSOXClass) (t : Transport σ) (value0 : Nat) (w : World σ)
    (hid : (readRegister dev t LSM6DSOX_WHO_AM_I_REG value0 (beginTransport dev t w)).1 ≠ 0x6C) :
    (begin dev t value0 w).1 = 0
      ∧ (begin dev t value0 w).2
          = end_ dev t (readRegister dev t LSM6DSOX_WHO_AM_I_REG value0 (beginTransport dev t w)).2
      ∧ registerWrites (issued w (begin dev t value0 w).2)
          = endWrites dev
      ∧ ∀ p ∈ registerWrites (issued w (begin dev t value0 w).2),
          p.2 = 0 ∧ p ∉ [(0x11, 0x4C), (0x10, 0x4A), (0x16, 0x00), (0x17, 0x09)] := by
  have hb : begin dev t value0 w
      = (0, end_ dev t (readRegister dev t LSM6DSOX_WHO_AM_I_REG value0
          (beginTransport dev t w)).2) := by
    simp only [begin]
    rw [if_pos hid]
  have hw : registerWrites (issued w (begin dev t value0 w).2)
      = endWrites dev := by
    rw [hb]
    cases dev with
    | spi cs irq =>
      rw [issued_of_trace w _ (beginCalls (LSM6DSOXClass.spi cs irq)
        ++ spiReadFrame cs 0x0F [value0] 1
        ++ [Event.spiEnd, Event.digitalWrite cs Level.LOW, Event.pinMode cs PinMode.INPUT])]
      · rfl
      · simp only [end_trace_spi, readRegister_world, readRegisters_spi_trace,
          beginTransport_trace, LSM6DSOX_WHO_AM_I_REG, List.append_assoc]
    | wire s =>
      rcases readRegisters_wire_trace_cases t s LSM6DSOX_WHO_AM_I_REG 1 [value0]
        (beginTransport (LSM6DSOXClass.wire s) t w) with h | h | h
      all_goals
        simp only [issued, end_trace_wire, readRegister_world, h, beginTransport_trace,
          List.append_assoc, List.drop_left]
        rfl
  refine ⟨by rw [hb], by rw [hb], hw, ?_⟩
  rw [hw]
  cases dev with
  | spi cs irq => intro p hp; simp [endWrites] at hp
  | wire s =>
    intro p hp
    simp only [endWrites, List.mem_cons, List.mem_singleton, List.not_mem_nil, or_false] at hp
    rcases hp with rfl | rfl <;> simp

theorem begin_rejects_witness :
    (begin (LSM6DSOXClass.wire 0x6A) mockBus 0 ⟨MockBus.idle, []⟩).1 = 0
      ∧ registerWrites (issued ⟨MockBus.idle, []⟩
          (begin (LSM6DSOXClass.wire 0x6A) mockBus 0 ⟨MockBus.idle, []⟩).2)
        = [(0x11, 0x00), (0x10, 0x00)] :=
  ⟨(begin_rejects (LSM6DSOXClass.wire 0x6A) mockBus 0 ⟨MockBus.idle, []⟩ (by decide)).1,
    (begin_rejects (LSM6DSOXClass.wire 0x6A) mockBus 0 ⟨MockBus.idle, []⟩ (by decide)).2.2.1⟩

/-! ## Availability -/

theorem and_two_pow_ne_zero (s k : Nat) : s &&& 2 ^ k ≠ 0 ↔ s.testBit k = true := by
  constructor
  · intro h
    by_contra hb
    apply h
    apply Nat.eq_of_testBit_eq
    intro i
    rw [Nat.testBit_and, Nat.testBit_two_pow, Nat.zero_testBit]
    by_cases hki : k = i
    · subst hki; simp [hb]
    · simp [hki]
  · intro hb h
    have : (s &&& 2 ^ k).testBit k = true := by
      rw [Nat.testBit_and, Nat.testBit_two_pow_self, hb]; rfl
    rw [h, Nat.zero_testBit] at this
    exact Bool.noConfusion this

theorem land_byte (s m : Nat) : Int.land (s : Int) (m : Int) = ((s &&& m : Nat) : Int) := rfl

theorem accelerationAvailable_of_status (dev : LSM6DSOXClass) (t : Transport σ) (value0 : Nat)
    (w : World σ) (s : Nat)
    (h : (readRegister dev t LSM6DSOX_STATUS_REG value0 w).1 = (s : Int)) :
    (accelerationAvailable dev t value0 w).1 = if s.testBit 0 then 1 else 0 := by
  have hl : Int.land (s : Int) 0x01 = ((s &&& 2 ^ 0 : Nat) : Int) := land_byte s 1
  simp only [accelerationAvailable, h, hl]
  by_cases hb : s.testBit 0 = true
  · rw [if_pos (by exact_mod_cast (and_two_pow_ne_zero s 0).mpr hb), if_pos hb]
  · rw [if_neg (by exact_mod_cast fun hne => hb ((and_two_pow_ne_zero s 0).mp hne)), if_neg hb]

theorem gyroscopeAvailable_of_status (dev : LSM6DSOXClass) (t : Transport σ) (value0 : Nat)
    (w : World σ) (s : Nat)
    (h : (readRegister dev t LSM6DSOX_STATUS_REG value0 w).1 = (s : Int)) :
    (gyroscopeAvailable dev t value0 w).1 = if s.testBit 1 then 1 else 0 := by
  have hl : Int.land (s : Int) 0x02 = ((s &&& 2 ^ 1 : Nat) : Int) := land_byte s 2
  simp only [gyroscopeAvailable, h, hl]
  by_cases hb : s.testBit 1 = true
  · rw [if_pos (by exact_mod_cast (and_two_pow_ne_zero s 1).mpr hb), if_pos hb]
  · rw [if_neg (by exact_mod_cast fun hne => hb ((and_two_pow_ne_zero s 1).mp hne)), if_neg hb]

theorem accelerationAvailable_world (dev : LSM6DSOXClass) (t : Transport σ) (value0 : Nat)
    (w : World σ) :
    (accelerationAvailable dev t value0 w).2
      = (readRegister dev t LSM6DSOX_STATUS_REG value0 w).2 := by
  simp only [accelerationAvailable]
  split <;> rfl

theorem gyroscopeAvailable_world (dev : LSM6DSOXClass) (t : Transport σ) (value0 : Nat)
    (w : World σ) :
    (gyroscopeAvailable dev t value0 w).2
      = (readRegister dev t LSM6DSOX_STATUS_REG value0 w).2 := by
  simp only [gyroscopeAvailable]
  split <;> rfl

/-- C4: when the read of the status register 0x1E succeeds with the byte `s`,
`accelerationAvailable()` returns 1 if bit 0 of `s` is set and 0 if not, and
`gyroscopeAvailable()` returns 1 if bit 1 of `s` is set and 0 if not; wherever
the status read yields a byte that differs from `s` in one other bit `k`, the
result is the same; and each call leaves the world of exactly one
`readRegister(0x1E)`, whose calls are those of one 1-byte register read. -/
theorem available_iff_status_bit (dev : LSM6DSOXClass) (t : Transport σ) (value0 : Nat)
    (w : World σ) (s : Nat)
    (h : (readRegister dev t LSM6DSOX_STATUS_REG value0 w).1 = (s : Int)) :
    ((accelerationAvailable dev t value0 w).1 = if s.testBit 0 then 1 else 0)
      ∧ ((gyroscopeAvailable dev t value0 w).1 = if s.testBit 1 then 1 else 0)
      ∧ (∀ (w' : World σ) (k : Nat), k ≠ 0 →
          (readRegister dev t LSM6DSOX_STATUS_REG value0 w').1 = ((s ^^^ 2 ^ k : Nat) : Int) →
          (accelerationAvailable dev t value0 w').1 = (accelerationAvailable dev t value0 w).1)
      ∧ (∀ (w' : World σ) (k : Nat), k ≠ 1 →
          (readRegister dev t LSM6DSOX_STATUS_REG value0 w').1 = ((s ^^^ 2 ^ k : Nat) : Int) →
          (gyroscopeAvailable dev t value0 w').1 = (gyroscopeAvailable dev t value0 w).1)
      ∧ (accelerationAvailable dev t value0 w).2
          = (readRegister dev t LSM6DSOX_STATUS_REG value0 w).2
      ∧ (gyroscopeAvailable dev t value0 w).2
          = (readRegister dev t LSM6DSOX_STATUS_REG value0 w).2
      ∧ issued w (accelerationAvailable dev t value0 w).2 = readFrame dev 0x1E [value0] 1
      ∧ issued w (gyroscopeAvailable dev t value0 w).2 = readFrame dev 0x1E [value0] 1 := by
  have hok : (readRegisters dev t LSM6DSOX_STATUS_REG [value0] 1 w).1 = 1 :=
    readRegister_ok_of_ne dev t _ value0 w (by rw [h]; omega)
  have htr : issued w (readRegister dev t LSM6DSOX_STATUS_REG value0 w).2
      = readFrame dev 0x1E [value0] 1 := by
    apply issued_of_trace
    rw [readRegister_world, readRegisters_trace_ok dev t _ 1 [value0] w hok]
    rfl
  refine ⟨accelerationAvailable_of_status dev t value0 w s h,
    gyroscopeAvailable_of_status dev t value0 w s h, ?_, ?_,
    accelerationAvailable_world dev t value0 w, gyroscopeAvailable_world dev t value0 w, ?_, ?_⟩
  · intro w' k hk0 h'
    rw [accelerationAvailable_of_status dev t value0 w s h,
      accelerationAvailable_of_status dev t value0 w' _ h', Nat.testBit_xor,
      Nat.testBit_two_pow_of_ne hk0, Bool.xor_false]
  · intro w' k hk1 h'
    rw [gyroscopeAvailable_of_status dev t value0 w s h,
      gyroscopeAvailable_of_status dev t value0 w' _ h', Nat.testBit_xor,
      Nat.testBit_two_pow_of_ne hk1, Bool.xor_false]
  · rw [accelerationAvailable_world]; exact htr
  · rw [gyroscopeAvailable_world]; exact htr

/-! ## Rounding -/

theorem roundNearestEven_intCast (k : ℤ) : roundNearestEven (k : ℚ) = k := by
  simp [roundNearestEven]

theorem roundBinary_exact (p : ℕ) (emin e m : ℤ) (hm : |m| < 2 ^ p) (he : emin ≤ e) :
    roundBinary p emin ((m : ℚ) * 2 ^ e) = (m : ℚ) * 2 ^ e := by
  by_cases hm0 : m = 0
  · simp [hm0, roundBinary]
  have h2 : (0 : ℚ) < 2 := by norm_num
  have hq0 : (m : ℚ) * 2 ^ e ≠ 0 :=
    mul_ne_zero (by exact_mod_cast hm0) (zpow_ne_zero _ (by norm_num))
  have habs : |(m : ℚ) * 2 ^ e| < (2 : ℚ) ^ (e + p) := by
    rw [abs_mul, abs_of_pos (zpow_pos h2 e), zpow_add₀ (by norm_num : (2 : ℚ) ≠ 0),
      mul_comm, zpow_natCast]
    apply mul_lt_mul_of_pos_left _ (zpow_pos h2 e)
    exact_mod_cast hm
  have hlog : Int.log 2 |(m : ℚ) * 2 ^ e| < e + p :=
    (Int.lt_zpow_iff_log_lt (by norm_num) (abs_pos.mpr hq0)).mp (by exact_mod_cast habs)
  have hE : max (Int.log 2 |(m : ℚ) * 2 ^ e| - ((p : ℤ) - 1)) emin ≤ e :=
    max_le (by omega) he
  obtain ⟨d, hd⟩ := Int.eq_ofNat_of_zero_le (sub_nonneg.mpr hE)
  have hdiv : (m : ℚ) * 2 ^ e / 2 ^ max (Int.log 2 |(m : ℚ) * 2 ^ e| - ((p : ℤ) - 1)) emin
      = ((m * 2 ^ d : ℤ) : ℚ) := by
    rw [mul_div_assoc, ← zpow_sub₀ (by norm_num : (2 : ℚ) ≠ 0), hd]
    push_cast
    rw [zpow_natCast]
  simp only [roundBinary, if_neg hq0]
  rw [hdiv, roundNearestEven_intCast]
  push_cast
  rw [mul_assoc, ← zpow_natCast, ← zpow_add₀ (by norm_num : (2 : ℚ) ≠ 0), ← hd]
  congr 2
  ring

theorem toFormat_exact (p : ℕ) (emin emax e m : ℤ) (hm : |m| < 2 ^ p) (he : emin ≤ e)
    (hmax : e + p ≤ emax + 1) :
    toFormat p emin emax ((m : ℚ) * 2 ^ e) = FloatVal.fin ((m : ℚ) * 2 ^ e) := by
  have h2 : (0 : ℚ) < 2 := by norm_num
  have habs : |(m : ℚ) * 2 ^ e| < (2 : ℚ) ^ (emax + 1) := by
    calc |(m : ℚ) * 2 ^ e| = 2 ^ e * |(m : ℚ)| := by
          rw [abs_mul, abs_of_pos (zpow_pos h2 e), mul_comm]
      _ < 2 ^ e * 2 ^ (p : ℤ) := by
          apply mul_lt_mul_of_pos_left _ (zpow_pos h2 e)
          rw [zpow_natCast]
          exact_mod_cast hm
      _ = 2 ^ (e + p) := (zpow_add₀ (by norm_num : (2 : ℚ) ≠ 0) e p).symm
      _ ≤ 2 ^ (emax + 1) := zpow_le_zpow_right₀ (by norm_num) hmax
  simp only [toFormat, roundBinary_exact p emin e m hm he]
  rw [if_neg (not_le.mpr habs)]

theorem accelerationValue_exact (r : Int) (hr : -32768 ≤ r ∧ r < 32768) :
    accelerationValue r = FloatVal.fin ((r : ℚ) * 4 / 32768) := by
  have h1 : dmul (ofInt16 r) (FloatVal.fin 4) = FloatVal.fin ((r : ℚ) * 4) := by
    have := toFormat_exact 53 (-1074) 1023 0 (r * 4) (by rw [abs_lt]; constructor <;> omega)
      (by norm_num) (by norm_num)
    simp only [zpow_zero, mul_one] at this
    simp only [dmul, ofInt16, toDouble]
    exact_mod_cast this
  have h2 : ddiv (FloatVal.fin ((r : ℚ) * 4)) (FloatVal.fin 32768)
      = FloatVal.fin ((r : ℚ) * 4 / 32768) := by
    have := toFormat_exact 53 (-1074) 1023 (-13) r (by rw [abs_lt]; constructor <;> omega)
      (by norm_num) (by norm_num)
    have e : (r : ℚ) * 2 ^ (-13 : ℤ) = (r : ℚ) * 4 / 32768 := by
      rw [zpow_neg]; norm_num; ring
    rw [e] at this
    simp only [ddiv, toDouble]
    rw [if_neg (by norm_num)]
    exact this
  have h3 : doubleToFloat (FloatVal.fin ((r : ℚ) * 4 / 32768))
      = FloatVal.fin ((r : ℚ) * 4 / 32768) := by
    have := toFormat_exact 24 (-149) 127 (-13) r (by rw [abs_lt]; constructor <;> omega)
      (by norm_num) (by norm_num)
    have e : (r : ℚ) * 2 ^ (-13 : ℤ) = (r : ℚ) * 4 / 32768 := by
      rw [zpow_neg]; norm_num; ring
    rw [e] at this
    exact this
  rw [accelerationValue, h1, h2, h3]

theorem gyroscopeValue_exact (r : Int) (hr : -32768 ≤ r ∧ r < 32768) :
    gyroscopeValue r = FloatVal.fin ((r : ℚ) * 2000 / 32768) := by
  have h1 : dmul (ofInt16 r) (FloatVal.fin 2000) = FloatVal.fin ((r : ℚ) * 2000) := by
    have := toFormat_exact 53 (-1074) 1023 0 (r * 2000) (by rw [abs_lt]; constructor <;> omega)
      (by norm_num) (by norm_num)
    simp only [zpow_zero, mul_one] at this
    simp only [dmul, ofInt16, toDouble]
    exact_mod_cast this
  have e : ((125 * r : ℤ) : ℚ) * 2 ^ (-11 : ℤ) = (r : ℚ) * 2000 / 32768 := by
    rw [zpow_neg]; push_cast; norm_num; ring
  have h2 : ddiv (FloatVal.fin ((r : ℚ) * 2000)) (FloatVal.fin 32768)
      = FloatVal.fin ((r : ℚ) * 2000 / 32768) := by
    have := toFormat_exact 53 (-1074) 1023 (-11) (125 * r)
      (by rw [abs_lt]; constructor <;> omega) (by norm_num) (by norm_num)
    rw [e] at this
    simp only [ddiv, toDouble]
    rw [if_neg (by norm_num)]
    exact this
  have h3 : doubleToFloat (FloatVal.fin ((r : ℚ) * 2000 / 32768))
      = FloatVal.fin ((r : ℚ) * 2000 / 32768) := by
    have := toFormat_exact 24 (-149) 127 (-11) (125 * r)
      (by rw [abs_lt]; constructor <;> omega) (by norm_num) (by norm_num)
    rw [e] at this
    exact this
  rw [gyroscopeValue, h1, h2, h3]

/-! ## Samples -/

/-- C1, at an input where it fails: with no device on the bus the address write
is not acknowledged and `readRegisters` returns -1, yet `readAcceleration` and
`readGyroscope` return 1 and their outputs are the finite values computed from
the never-written local buffer (here every byte 0x11, raw value 4369), not
NaN. -/
theorem sample_read_ignores_bus_error :
    (readRegisters (LSM6DSOXClass.wire 0x6A) absentBus LSM6DSOX_OUTX_L_XL
        (List.ofFn fun (_ : Fin 6) => 0x11) 6 ⟨(), []⟩).1 = -1
      ∧ (readAcceleration (LSM6DSOXClass.wire 0x6A) absentBus (fun _ => 0x11) ⟨(), []⟩).1
        = ⟨1, FloatVal.fin (4369 * 4 / 32768), FloatVal.fin (4369 * 4 / 32768),
            FloatVal.fin (4369 * 4 / 32768)⟩
      ∧ (readRegisters (LSM6DSOXClass.wire 0x6A) absentBus LSM6DSOX_OUTX_L_G
          (List.ofFn fun (_ : Fin 6) => 0x11) 6 ⟨(), []⟩).1 = -1
      ∧ (readGyroscope (LSM6DSOXClass.wire 0x6A) absentBus (fun _ => 0x11) ⟨(), []⟩).1
        = ⟨1, FloatVal.fin (4369 * 2000 / 32768), FloatVal.fin (4369 * 2000 / 32768),
            FloatVal.fin (4369 * 2000 / 32768)⟩ := by
  have ha := readRegisters_wire_error absentBus 0x6A LSM6DSOX_OUTX_L_XL 6
    (List.ofFn fun (_ : Fin 6) => 0x11) ⟨(), []⟩ (by decide)
  have hg := readRegisters_wire_error absentBus 0x6A LSM6DSOX_OUTX_L_G 6
    (List.ofFn fun (_ : Fin 6) => 0x11) ⟨(), []⟩ (by decide)
  have h0 : int16At (List.ofFn fun (_ : Fin 6) => 0x11) 0 = 4369 := by decide
  have h1 : int16At (List.ofFn fun (_ : Fin 6) => 0x11) 1 = 4369 := by decide
  have h2 : int16At (List.ofFn fun (_ : Fin 6) => 0x11) 2 = 4369 := by decide
  refine ⟨by rw [ha], ?_, by rw [hg], ?_⟩
  · simp only [readAcceleration, ha]
    rw [if_neg (by decide), h0, h1, h2, accelerationValue_exact 4369 (by omega)]
    norm_num
  · simp only [readGyroscope, hg]
    rw [if_neg (by decide), h0, h1, h2, gyroscopeValue_exact 4369 (by omega)]
    norm_num

theorem land_neg_one (m : Nat) : Int.land (-1) (m : Int) = (m : Int) := by
  show ((Nat.ldiff m 0 : Nat) : Int) = m
  simp [Nat.ldiff]

/-- C10: on the bus path, when the one-byte read of the status register fails
(`readRegisters` returns -1 or 0), `readRegister` returns -1 and both
`accelerationAvailable()` and `gyroscopeAvailable()` return 1, the very result
of a successful read of a status byte with bits 0 and 1 set. -/
theorem available_on_failed_status_read (t : Transport σ) (s value0 : Nat) (w : World σ)
    (h : (readRegisters (LSM6DSOXClass.wire s) t LSM6DSOX_STATUS_REG [value0] 1 w).1 = -1
      ∨ (readRegisters (LSM6DSOXClass.wire s) t LSM6DSOX_STATUS_REG [value0] 1 w).1 = 0) :
    (readRegister (LSM6DSOXClass.wire s) t LSM6DSOX_STATUS_REG value0 w).1 = -1
      ∧ (accelerationAvailable (LSM6DSOXClass.wire s) t value0 w).1 = 1
      ∧ (gyroscopeAvailable (LSM6DSOXClass.wire s) t value0 w).1 = 1 := by
  have hne : (readRegisters (LSM6DSOXClass.wire s) t LSM6DSOX_STATUS_REG [value0] 1 w).1 ≠ 1 := by
    rcases h with h | h <;> rw [h] <;> decide
  have hr : (readRegister (LSM6DSOXClass.wire s) t LSM6DSOX_STATUS_REG value0 w).1 = -1 := by
    simp only [readRegister]
    rw [if_pos hne]
  refine ⟨hr, ?_, ?_⟩
  · simp only [accelerationAvailable, hr]
    have h1 : Int.land (-1) 0x01 = 1 := land_neg_one 1
    rw [if_pos (by rw [h1]; decide)]
  · simp only [gyroscopeAvailable, hr]
    have h2 : Int.land (-1) 0x02 = 2 := land_neg_one 2
    rw [if_pos (by rw [h2]; decide)]

theorem available_on_failed_status_read_witness :
    (readRegister (LSM6DSOXClass.wire 0x6A) absentBus LSM6DSOX_STATUS_REG 0 ⟨(), []⟩).1 = -1
      ∧ (accelerationAvailable (LSM6DSOXClass.wire 0x6A) absentBus 0 ⟨(), []⟩).1 = 1
      ∧ (gyroscopeAvailable (LSM6DSOXClass.wire 0x6A) absentBus 0 ⟨(), []⟩).1 = 1 :=
  available_on_failed_status_read absentBus 0x6A 0 ⟨(), []⟩ (Or.inl (by decide))

/-! ## Round trip -/

/-- C9 as stated fails for a transport that grants more than it is asked for:
the address write succeeds and two bytes are granted for a request of one,
which is not fewer than requested, yet `readRegisters` returns 0 and leaves the
buffer as it was. -/
theorem readRegisters_over_granted :
    (afterAddress generousBus 0x6A 0x0F ⟨(), []⟩).1 = 0
      ∧ (wireRequestFrom generousBus 0x6A 1 (afterAddress generousBus 0x6A 0x0F ⟨(), []⟩).2).1 = 2
      ∧ (readRegisters (LSM6DSOXClass.wire 0x6A) generousBus 0x0F [0x11] 1 ⟨(), []⟩).1 = 0
      ∧ (readRegisters (LSM6DSOXClass.wire 0x6A) generousBus 0x0F [0x11] 1 ⟨(), []⟩).2.1
        = [0x11] := by
  decide

theorem readRegisters_bus_outcomes_witness :
    (readRegisters (LSM6DSOXClass.wire 0x6A) mockBus 0x0F [0] 1 ⟨MockBus.genuine, []⟩).1 = 1
      ∧ (readRegisters (LSM6DSOXClass.wire 0x6A) mockBus 0x0F [0] 1
          ⟨MockBus.genuine, []⟩).2.1.length = 1 :=
  ⟨((readRegisters_bus_outcomes mockBus 0x6A 0x0F 1 [0] ⟨MockBus.genuine, []⟩).2.2.2
      (by decide) (by decide)).1,
    ((readRegisters_bus_outcomes mockBus 0x6A 0x0F 1 [0] ⟨MockBus.genuine, []⟩).2.2.2
      (by decide) (by decide)).2.2.2.1⟩

theorem available_iff_status_bit_witness :
    (accelerationAvailable (LSM6DSOXClass.wire 0x6A) mockBus 0
        ⟨MockBus.withRegs (fun _ => 1), []⟩).1 = (if Nat.testBit 1 0 then 1 else 0)
      ∧ (gyroscopeAvailable (LSM6DSOXClass.wire 0x6A) mockBus 0
          ⟨MockBus.withRegs (fun _ => 1), []⟩).1 = (if Nat.testBit 1 1 then 1 else 0)
      ∧ (accelerationAvailable (LSM6DSOXClass.wire 0x6A) mockBus 0
          ⟨MockBus.withRegs (fun _ => 3), []⟩).1
        = (accelerationAvailable (LSM6DSOXClass.wire 0x6A) mockBus 0
          ⟨MockBus.withRegs (fun _ => 1), []⟩).1 :=
  ⟨(available_iff_status_bit (LSM6DSOXClass.wire 0x6A) mockBus 0
      ⟨MockBus.withRegs (fun _ => 1), []⟩ 1 (by decide)).1,
    (available_iff_status_bit (LSM6DSOXClass.wire 0x6A) mockBus 0
      ⟨MockBus.withRegs (fun _ => 1), []⟩ 1 (by decide)).2.1,
    (available_iff_status_bit (LSM6DSOXClass.wire 0x6A) mockBus 0
      ⟨MockBus.withRegs (fun _ => 1), []⟩ 1 (by decide)).2.2.1
      ⟨MockBus.withRegs (fun _ => 3), []⟩ 1 (by decide) (by decide)⟩

end LSM6DSOX
